import Mathlib

/-!
Verification of the Volcengine request-signing subsystem and the `/api/ocr`
endpoint guards of `src/worker/index.ts`.

The embedding is a line-by-line shallow translation of the TypeScript source:

* JavaScript strings are modelled as Lean `String`; where JavaScript operates
  on UTF-16 code units (the default array `sort`, `substring`) the model
  encodes to UTF-16 code units explicitly.
* `crypto.subtle` SHA-256 and HMAC-SHA-256 are platform primitives outside the
  repository, so they are abstracted as a `Crypto` parameter consisting of a
  digest function and a keyed-MAC function on byte lists; every theorem is
  proved for an arbitrary `Crypto`, hence in particular for the real one.
* `new Date()` is read exactly once by the source; the model therefore takes
  the captured timestamp as an explicit `UTCTime` argument (field values are
  the UTC components rendered by `toISOString`, years 0 to 9999).
* JavaScript objects (`Record<string, string>`) are association lists whose
  keys are unique; `undefined` lookups are modelled by `Option`.
-/

/-- A decimal digit character: `Char.ofNat (48 + k % 10)`. The reduction
modulo 10 is part of the model only; all arguments in use are below 10. -/
def digitChar10 (k : Nat) : Char := Char.ofNat (48 + k % 10)

/-- Two-decimal-digit rendering, as produced by `toISOString` for the month,
day, hour, minute and second fields. -/
def pad2 (n : Nat) : String := String.mk [digitChar10 (n / 10), digitChar10 n]

/-- Three-decimal-digit rendering of the milliseconds field. -/
def pad3 (n : Nat) : String :=
  String.mk [digitChar10 (n / 100), digitChar10 (n / 10), digitChar10 n]

/-- Four-decimal-digit rendering of the year field. -/
def pad4 (n : Nat) : String :=
  String.mk [digitChar10 (n / 1000), digitChar10 (n / 100), digitChar10 (n / 10), digitChar10 n]

/-- The UTC components of the single `new Date()` captured at the start of
`signVolcengineRequest` (source line 70). -/
structure UTCTime where
  year : Nat
  month : Nat
  day : Nat
  hour : Nat
  minute : Nat
  second : Nat
  millis : Nat

/-- Model of JavaScript `Date.prototype.toISOString`:
`YYYY-MM-DDTHH:mm:ss.sssZ`. -/
def toISOString (t : UTCTime) : String :=
  pad4 t.year ++ "-" ++ pad2 t.month ++ "-" ++ pad2 t.day ++ "T" ++
    pad2 t.hour ++ ":" ++ pad2 t.minute ++ ":" ++ pad2 t.second ++ "." ++
    pad3 t.millis ++ "Z"

/-- Model of `.replace(/[-:]/g, "")`: drop every dash and colon. -/
def stripDashColon (s : String) : String :=
  String.mk (s.data.filter (fun c => !(c == '-' || c == ':')))

/-- Scanner for the regex `/\.\d{3}/` without the global flag: remove the
first occurrence of a dot followed by three decimal digits. -/
def removeDotTriple : List Char → List Char
  | [] => []
  | x :: rest =>
    if x == '.' then
      match rest with
      | a :: b :: c :: rest2 =>
        if a.isDigit && b.isDigit && c.isDigit then rest2
        else x :: removeDotTriple rest
      | _ => x :: removeDotTriple rest
    else x :: removeDotTriple rest

/-- Model of `.replace(/\.\d{3}/, "")`. -/
def removeDotMillis (s : String) : String := String.mk (removeDotTriple s.data)

/-- Source line 71: `now.toISOString().replace(/[-:]/g, "").replace(/\.\d{3}/, "")`. -/
def xDateOf (t : UTCTime) : String := removeDotMillis (stripDashColon (toISOString t))

/-- Model of `s.substring(0, n)`. The source only applies it to the ASCII
string `xDate`, where code-unit indexing and character indexing agree. -/
def jsSubstring0 (s : String) (n : Nat) : String := String.mk (s.data.take n)

/-- Source line 72: `xDate.substring(0, 8)`. -/
def dateStampOf (t : UTCTime) : String := jsSubstring0 (xDateOf t) 8

/-- UTF-8 encoding of one character (model of `TextEncoder.encode`,
one scalar value at a time). -/
def utf8EncodeChar (c : Char) : List Nat :=
  let n := c.toNat
  if n < 0x80 then [n]
  else if n < 0x800 then [0xC0 + n / 64, 0x80 + n % 64]
  else if n < 0x10000 then [0xE0 + n / 4096, 0x80 + (n / 64) % 64, 0x80 + n % 64]
  else [0xF0 + n / 262144, 0x80 + (n / 4096) % 64, 0x80 + (n / 64) % 64, 0x80 + n % 64]

/-- UTF-8 encoding of a character list. -/
def utf8OfChars : List Char → List Nat
  | [] => []
  | c :: cs => utf8EncodeChar c ++ utf8OfChars cs

/-- Model of `new TextEncoder().encode(s)`: the UTF-8 bytes of `s`. -/
def utf8Encode (s : String) : List Nat := utf8OfChars s.data

/-- A lowercase hexadecimal digit, as produced by `b.toString(16)`. -/
def hexDigitLower (n : Nat) : Char :=
  if n % 16 < 10 then Char.ofNat (48 + n % 16) else Char.ofNat (87 + n % 16)

/-- An uppercase hexadecimal digit, as produced by `encodeURIComponent`. -/
def hexDigitUpper (n : Nat) : Char :=
  if n % 16 < 10 then Char.ofNat (48 + n % 16) else Char.ofNat (55 + n % 16)

/-- Lowercase hex rendering of a byte list, two digits per byte. -/
def hexCharsLower : List Nat → List Char
  | [] => []
  | b :: bs => hexDigitLower (b / 16) :: hexDigitLower b :: hexCharsLower bs

/-- Source lines 47-51: `bufferToHex` maps every byte of the buffer to
`b.toString(16).padStart(2, "0")` and concatenates. -/
def bufferToHex (bs : List Nat) : String := String.mk (hexCharsLower bs)

/-- The two `crypto.subtle` primitives used by the source, abstracted: a
SHA-256 digest on byte lists and an HMAC-SHA-256 taking a raw key and data
byte lists. Both are opaque; nothing in the repository defines them. -/
structure Crypto where
  sha256 : List Nat → List Nat
  hmac : List Nat → List Nat → List Nat

/-- Source lines 34-42: `hashSHA256` digests the UTF-8 bytes of the input and
renders the digest in lowercase hex. -/
def hashSHA256 (C : Crypto) (data : String) : String :=
  bufferToHex (C.sha256 (utf8Encode data))

/-- Source lines 17-29: `hmacSHA256` with a raw byte key and string data; a
string key is UTF-8 encoded by the caller of this model. -/
def hmacSHA256 (C : Crypto) (key : List Nat) (data : String) : List Nat :=
  C.hmac key (utf8Encode data)

/-- The `uriUnescaped` code points of ECMA-262 `encodeURIComponent`:
ASCII letters and digits together with `- . _ ~ ! * ( )` and the apostrophe
(code 39). -/
def jsUriUnescaped (n : Nat) : Bool :=
  (65 ≤ n && n ≤ 90) || (97 ≤ n && n ≤ 122) || (48 ≤ n && n ≤ 57) ||
    n == 45 || n == 46 || n == 95 || n == 126 ||
    n == 33 || n == 42 || n == 39 || n == 40 || n == 41

/-- Percent-encoding of a byte list: `%XY` with uppercase hex digits. -/
def percentEncodeBytes : List Nat → List Char
  | [] => []
  | b :: bs => '%' :: hexDigitUpper (b / 16) :: hexDigitUpper b :: percentEncodeBytes bs

/-- Character-wise model of `encodeURIComponent`: an unescaped code point is
kept, anything else is the percent-encoding of its UTF-8 bytes. -/
def encodeURIComponentChar (c : Char) : String :=
  if jsUriUnescaped c.toNat then String.mk [c]
  else String.mk (percentEncodeBytes (utf8EncodeChar c))

/-- Worker over the character list for `encodeURIComponent`. -/
def encURIChars : List Char → List Char
  | [] => []
  | c :: cs => (encodeURIComponentChar c).data ++ encURIChars cs

/-- Model of JavaScript `encodeURIComponent`. -/
def encodeURIComponent (s : String) : String := String.mk (encURIChars s.data)

/-- UTF-16 code units of one character: a BMP scalar is itself, a
supplementary scalar becomes its surrogate pair. -/
def utf16EncodeChar (c : Char) : List Nat :=
  if c.toNat < 0x10000 then [c.toNat]
  else [0xD800 + (c.toNat - 0x10000) / 0x400, 0xDC00 + (c.toNat - 0x10000) % 0x400]

/-- UTF-16 code units of a character list. -/
def utf16OfChars : List Char → List Nat
  | [] => []
  | c :: cs => utf16EncodeChar c ++ utf16OfChars cs

/-- The UTF-16 code-unit sequence of a string, the sequence JavaScript string
comparison operates on. -/
def utf16Units (s : String) : List Nat := utf16OfChars s.data

/-- Strict lexicographic order on code-unit lists. -/
def lexLt : List Nat → List Nat → Bool
  | _, [] => false
  | [], _ :: _ => true
  | a :: as, b :: bs => if a < b then true else if b < a then false else lexLt as bs

/-- JavaScript `a < b` on strings: lexicographic on UTF-16 code units. -/
def jsStrLt (a b : String) : Bool := lexLt (utf16Units a) (utf16Units b)

/-- The ordering used by the default `Array.prototype.sort` comparator on
strings: `a` precedes `b` when `b < a` does not hold. -/
def jsLe (a b : String) : Prop := jsStrLt b a = false

instance : DecidableRel jsLe := fun a b =>
  inferInstanceAs (Decidable (jsStrLt b a = false))

/-- Model of `Object.keys(m).sort()`: the keys sorted by the default
comparator. Insertion sort produces the sorted arrangement; for the unique
keys of a JavaScript object it is the unique sorted arrangement. -/
def sortKeysJs (ks : List String) : List String := List.insertionSort jsLe ks

/-- First-match association-list lookup, modelling property access on an
object with unique keys; `none` is JavaScript `undefined`. -/
def assocLookup : List (String × String) → String → Option String
  | [], _ => none
  | p :: rest, key => if p.1 = key then some p.2 else assocLookup rest key

/-- Model of `m[key]` in a context that converts the result to a string:
an absent property converts to the text `undefined`. -/
def jsIndex (m : List (String × String)) (key : String) : String :=
  (assocLookup m key).getD "undefined"

/-- JavaScript `a || b` on two possibly-undefined strings: the right operand
is taken when the left is `undefined` or empty (falsy). -/
def jsOrValue (a b : Option String) : Option String :=
  match a with
  | some s => if s = "" then b else some s
  | none => b

/-- Template-literal rendering of a possibly-undefined string. -/
def renderJsValue : Option String → String
  | some s => s
  | none => "undefined"

/-- JavaScript `[...].join(sep)`. -/
def joinSep (sep : String) : List String → String
  | [] => ""
  | [x] => x
  | x :: xs => x ++ sep ++ joinSep sep xs

/-- Source lines 79-85: sort the query keys, render each pair as
`encodeURIComponent(key)=encodeURIComponent(value)`, join with ampersands. -/
def sortedParamsOf (qp : List (String × String)) : String :=
  joinSep "&" ((sortKeysJs (qp.map Prod.fst)).map
    (fun key => encodeURIComponent key ++ "=" ++ encodeURIComponent (jsIndex qp key)))

/-- Source line 88: the fixed ordered list of signed header names. -/
def signedHeaderKeys : List String := ["host", "x-date", "x-content-sha256", "content-type"]

/-- Source line 94: `headers["content-type"] || headers["Content-Type"]`,
rendered into the template literal. -/
def contentTypeValueOf (headers : List (String × String)) : String :=
  renderJsValue (jsOrValue (assocLookup headers "content-type") (assocLookup headers "Content-Type"))

/-- Source lines 90-96: the canonical line produced for one signed header key. -/
def canonicalHeaderLine (host xDate xContentSha256 : String)
    (headers : List (String × String)) (key : String) : String :=
  if key == "host" then "host:" ++ host
  else if key == "x-date" then "x-date:" ++ xDate
  else if key == "x-content-sha256" then "x-content-sha256:" ++ xContentSha256
  else if key == "content-type" then "content-type:" ++ contentTypeValueOf headers
  else ""

/-- Source lines 89-97: the canonical headers block, newline-joined with a
trailing newline. -/
def canonicalHeadersOf (host xDate xContentSha256 : String)
    (headers : List (String × String)) : String :=
  joinSep "\n" (signedHeaderKeys.map (canonicalHeaderLine host xDate xContentSha256 headers)) ++ "\n"

/-- Source line 99: `signedHeaderKeys.join(";")`. -/
def signedHeadersStr : String := joinSep ";" signedHeaderKeys

/-- The ten parameters of `signVolcengineRequest` (source lines 57-67). -/
structure SignInput where
  method : String
  host : String
  path : String
  queryParams : List (String × String)
  headers : List (String × String)
  body : String
  accessKeyId : String
  secretAccessKey : String
  service : String
  region : String
deriving DecidableEq

/-- The result record of `signVolcengineRequest` (source line 68). -/
structure SignResult where
  authorization : String
  xDate : String
  xContentSha256 : String
deriving DecidableEq

/-- Source line 75: `hashSHA256(body)`. -/
def xContentSha256Of (C : Crypto) (body : String) : String := hashSHA256 C body

/-- Source lines 102-109: the six-line canonical request. -/
def canonicalRequestOf (C : Crypto) (i : SignInput) (t : UTCTime) : String :=
  joinSep "\n"
    [i.method, i.path, sortedParamsOf i.queryParams,
      canonicalHeadersOf i.host (xDateOf t) (xContentSha256Of C i.body) i.headers,
      signedHeadersStr, xContentSha256Of C i.body]

/-- Source line 112: `dateStamp/region/service/request`. -/
def credentialScopeOf (t : UTCTime) (region service : String) : String :=
  dateStampOf t ++ "/" ++ region ++ "/" ++ service ++ "/request"

/-- Source lines 114-119: the four-line string to sign. -/
def stringToSignOf (C : Crypto) (i : SignInput) (t : UTCTime) : String :=
  joinSep "\n"
    ["HMAC-SHA256", xDateOf t, credentialScopeOf t i.region i.service,
      hashSHA256 C (canonicalRequestOf C i t)]

/-- Source lines 122-125: the four-stage signing-key chain, seeded with the
UTF-8 bytes of the secret key and ending in the literal `request`. -/
def signingKeyOf (C : Crypto) (secretAccessKey dateStamp region service : String) : List Nat :=
  hmacSHA256 C
    (hmacSHA256 C (hmacSHA256 C (hmacSHA256 C (utf8Encode secretAccessKey) dateStamp) region) service)
    "request"

/-- Source line 128: the lowercase-hex HMAC of the string to sign under the
derived signing key. -/
def signatureOf (C : Crypto) (i : SignInput) (t : UTCTime) : String :=
  bufferToHex (hmacSHA256 C
    (signingKeyOf C i.secretAccessKey (dateStampOf t) i.region i.service)
    (stringToSignOf C i t))

/-- Source lines 57-134: `signVolcengineRequest`, with the captured clock
value passed explicitly (the source reads `new Date()` exactly once). -/
def signVolcengineRequest (C : Crypto) (i : SignInput) (t : UTCTime) : SignResult :=
  { authorization :=
      "HMAC-SHA256 Credential=" ++ i.accessKeyId ++ "/" ++ credentialScopeOf t i.region i.service ++
        ", SignedHeaders=" ++ signedHeadersStr ++ ", Signature=" ++ signatureOf C i t,
    xDate := xDateOf t,
    xContentSha256 := xContentSha256Of C i.body }

/-! ### The `/api/ocr` handler (source lines 144-234) -/

/-- The `application/x-www-form-urlencoded` serializer of one byte, as used
by `URLSearchParams.toString()`: alphanumerics and `* - . _` are literal,
space becomes `+`, everything else is percent-encoded. -/
def formByteEncode (b : Nat) : List Char :=
  if b == 0x20 then ['+']
  else if (48 ≤ b && b ≤ 57) || (65 ≤ b && b ≤ 90) || (97 ≤ b && b ≤ 122) ||
      b == 42 || b == 45 || b == 46 || b == 95 then [Char.ofNat b]
  else '%' :: hexDigitUpper (b / 16) :: hexDigitUpper b :: []

/-- Byte-list worker for the form serializer. -/
def formEncodeBytes : List Nat → List Char
  | [] => []
  | b :: bs => formByteEncode b ++ formEncodeBytes bs

/-- Form-urlencoded serialization of one string. -/
def formEncodeString (s : String) : String := String.mk (formEncodeBytes (utf8Encode s))

/-- Model of `URLSearchParams.toString()` over appended pairs. -/
def formUrlEncode (ps : List (String × String)) : String :=
  joinSep "&" (ps.map (fun p => formEncodeString p.1 ++ "=" ++ formEncodeString p.2))

/-- An outbound `fetch` performed by the handler. -/
structure OutboundRequest where
  url : String
  method : String
  headers : List (String × String)
  body : String
deriving DecidableEq

/-- The JSON response returned by the handler: either `c.json({error}, status)`
or the upstream payload passed through with status 200. -/
inductive OcrResponse where
  | errJson (status : Nat) (error : String)
  | upstream (resultJson : String)
deriving DecidableEq

/-- Observable outcome of one `/api/ocr` invocation: the response, how many
times the signer ran, and the outbound requests issued. -/
structure OcrOutcome where
  response : OcrResponse
  signCalls : Nat
  fetches : List OutboundRequest
deriving DecidableEq

/-- JavaScript truthiness of a possibly-undefined string. -/
def jsTruthyOpt : Option String → Bool
  | none => false
  | some s => !(s == "")

/-- Source lines 144-223: the `/api/ocr` handler on a successfully parsed
JSON body. `image_base64` is the parsed field (`none` when absent),
`accessKeyId` and `secretAccessKey` the environment bindings, `t` the clock
captured by the signer, and `upstreamJson` the body of the upstream reply
(transport errors of the out-of-scope `fetch` are not modelled). -/
def ocrHandler (C : Crypto) (accessKeyId secretAccessKey : Option String)
    (image_base64 : Option String) (t : UTCTime) (upstreamJson : String) : OcrOutcome :=
  if jsTruthyOpt image_base64 = false then
    { response := OcrResponse.errJson 400 "image_base64 is required", signCalls := 0, fetches := [] }
  else
    let host := "visual.volcengineapi.com"
    let path := "/"
    let queryParams : List (String × String) := [("Action", "OCRPdf"), ("Version", "2021-08-23")]
    let body := formUrlEncode
      [("image_base64", image_base64.getD ""), ("file_type", "image"), ("version", "v3")]
    let headers : List (String × String) := [("content-type", "application/x-www-form-urlencoded")]
    if jsTruthyOpt accessKeyId = false ∨ jsTruthyOpt secretAccessKey = false then
      { response := OcrResponse.errJson 500 "Missing Volcengine credentials",
        signCalls := 0, fetches := [] }
    else
      let r := signVolcengineRequest C
        { method := "POST", host := host, path := path, queryParams := queryParams,
          headers := headers, body := body,
          accessKeyId := (accessKeyId).getD "", secretAccessKey := (secretAccessKey).getD "",
          service := "cv", region := "cn-north-1" } t
      let queryString := joinSep "&" (queryParams.map
        (fun p => encodeURIComponent p.1 ++ "=" ++ encodeURIComponent p.2))
      { response := OcrResponse.upstream upstreamJson,
        signCalls := 1,
        fetches := [{ url := "https://" ++ host ++ path ++ "?" ++ queryString,
                      method := "POST",
                      headers := headers ++
                        [("Host", host), ("X-Date", r.xDate),
                          ("X-Content-Sha256", r.xContentSha256),
                          ("Authorization", r.authorization)],
                      body := body }] }

/-! ### Definitions written from the words of claim C4 (spec side)

Claim C4 asserts byte-value key order and percent-encoding of everything
outside the RFC 3986 unreserved set. These definitions follow those words so
the claim can be compared with the source behaviour. -/

/-- The RFC 3986 unreserved code points named by the claim: ALPHA, DIGIT,
`-`, `.`, `_`, `~`. -/
def rfcUnreserved (n : Nat) : Bool :=
  (65 ≤ n && n ≤ 90) || (97 ≤ n && n ≤ 122) || (48 ≤ n && n ≤ 57) ||
    n == 45 || n == 46 || n == 95 || n == 126

/-- Encoding demanded by claim C4: every character outside the unreserved set
is percent-encoded (UTF-8 bytes, uppercase hex). -/
def claimC4EncodeChar (c : Char) : String :=
  if rfcUnreserved c.toNat then String.mk [c]
  else String.mk (percentEncodeBytes (utf8EncodeChar c))

/-- Worker for `claimC4Encode`. -/
def claimC4EncodeChars : List Char → List Char
  | [] => []
  | c :: cs => (claimC4EncodeChar c).data ++ claimC4EncodeChars cs

/-- String encoding demanded by claim C4. -/
def claimC4Encode (s : String) : String := String.mk (claimC4EncodeChars s.data)

/-- Lexicographic order on strings by UTF-8 byte value, the key order claim
C4 demands. -/
def byteLe (a b : String) : Prop := lexLt (utf8Encode b) (utf8Encode a) = false

instance : DecidableRel byteLe := fun a b =>
  inferInstanceAs (Decidable (lexLt (utf8Encode b) (utf8Encode a) = false))

/-- The canonical query string as claim C4 states it: keys sorted by byte
value, keys and values encoded with only the unreserved set kept literal. -/
def claimC4QueryString (qp : List (String × String)) : String :=
  joinSep "&" ((List.insertionSort byteLe (qp.map Prod.fst)).map
    (fun key => claimC4Encode key ++ "=" ++ claimC4Encode (jsIndex qp key)))

/-! ### Concrete instances used by counterexamples and witnesses -/

/-- A concrete stand-in for the abstract crypto primitives, used only to
evaluate theorems (whose statements hold for every `Crypto`) at a point. -/
def cryptoDemo : Crypto :=
  { sha256 := fun bs => [bs.length % 256],
    hmac := fun key data => [key.length % 256, data.length % 256] }

/-- A fixed demonstration timestamp: 2024-01-01T00:00:00.000Z. -/
def timeDemo : UTCTime :=
  { year := 2024, month := 1, day := 1, hour := 0, minute := 0, second := 0, millis := 0 }

/-- One-character string holding U+FFFF (a BMP code point above the
surrogate range). -/
def strFFFF : String := String.mk [Char.ofNat 0xFFFF]

/-- One-character string holding U+10000 (a supplementary code point,
encoded in UTF-16 as a surrogate pair). -/
def str10000 : String := String.mk [Char.ofNat 0x10000]

/-- The sixteen characters `b.toString(16)` can produce per hex digit: the
decimal digits followed by the first six lowercase letters. -/
def lowercaseHexChars : List Char :=
  (List.range 10).map (fun k => Char.ofNat (48 + k)) ++
    (List.range 6).map (fun k => Char.ofNat (97 + k))

/-- A concrete signer input whose method and path are both empty. -/
def inputEmptyMP : SignInput :=
  { method := "", host := "h", path := "", queryParams := [], headers := [], body := "",
    accessKeyId := "AK", secretAccessKey := "SK", service := "cv", region := "r" }

/-- A concrete signer input whose header map has no content-type entry. -/
def inputNoCT : SignInput :=
  { method := "POST", host := "example.com", path := "/", queryParams := [], headers := [],
    body := "", accessKeyId := "AK", secretAccessKey := "SK", service := "cv",
    region := "cn-north-1" }

/-- A concrete signer input whose query map is supplied in the order B, A. -/
def inputBA : SignInput :=
  { method := "POST", host := "example.com", path := "/",
    queryParams := [("B", "2"), ("A", "1")], headers := [], body := "",
    accessKeyId := "AK", secretAccessKey := "SK", service := "cv", region := "cn-north-1" }

/-! ### Helper lemmas -/

theorem strEq_of_data (s t : String) (h : s.data = t.data) : s = t := by
  cases s; cases t; simp_all

theorem lexLt_nil_right (x : List Nat) : lexLt x [] = false := by
  cases x <;> rfl

theorem lexLt_asymm : ∀ (x y : List Nat), lexLt x y = true → lexLt y x = false := by
  intro x
  induction x with
  | nil => intro y _; exact lexLt_nil_right y
  | cons a as ih =>
    intro y h
    cases y with
    | nil => simp [lexLt] at h
    | cons b bs =>
      simp only [lexLt] at h ⊢
      rcases Nat.lt_trichotomy a b with h1 | h1 | h1
      · have hba : ¬ b < a := by omega
        simp [hba, h1]
      · subst h1
        simp only [Nat.lt_irrefl, if_false] at h ⊢
        exact ih bs h
      · have hab : ¬ a < b := by omega
        simp [hab, h1] at h


theorem lexLt_eq_of_not_lt : ∀ (x y : List Nat),
    lexLt x y = false → lexLt y x = false → x = y := by
  intro x
  induction x with
  | nil =>
    intro y h1 _
    cases y with
    | nil => rfl
    | cons b bs => simp [lexLt] at h1
  | cons a as ih =>
    intro y h1 h2
    cases y with
    | nil => simp [lexLt] at h2
    | cons b bs =>
      simp only [lexLt] at h1 h2
      have hab : a = b := by
        by_contra hne
        rcases Nat.lt_or_ge a b with h | h
        · simp [h] at h1
        · have hba : b < a := by omega
          simp [hba] at h2
      subst hab
      have h1' : lexLt as bs = false := by simpa [Nat.lt_irrefl] using h1
      have h2' : lexLt bs as = false := by simpa [Nat.lt_irrefl] using h2
      rw [ih bs h1' h2']

theorem lexLt_le_trans : ∀ (x y z : List Nat),
    lexLt y x = false → lexLt z y = false → lexLt z x = false := by
  intro x
  induction x with
  | nil => intro y z _ _; exact lexLt_nil_right z
  | cons a as ih =>
    intro y z h1 h2
    cases y with
    | nil => simp [lexLt] at h1
    | cons b bs =>
      cases z with
      | nil => simp [lexLt] at h2
      | cons c cs =>
        simp only [lexLt] at h1 h2 ⊢
        have hba : ¬ b < a := by intro h; simp [h] at h1
        have hcb : ¬ c < b := by intro h; simp [h] at h2
        have hca : ¬ c < a := by omega
        by_cases hac : a < c
        · simp [hca, hac]
        · have hab : a = b := by omega
          have hbc : b = c := by omega
          subst hab; subst hbc
          simp only [Nat.lt_irrefl, if_false] at h1 h2 ⊢
          exact ih bs cs h1 h2

theorem char_toNat_inj {a b : Char} (h : a.toNat = b.toNat) : a = b :=
  Char.eq_of_val_eq (UInt32.ext h)

theorem char_valid_ranges (c : Char) :
    c.toNat < 0xD800 ∨ (0xE000 ≤ c.toNat ∧ c.toNat < 0x110000) := c.valid

theorem utf16OfChars_inj : ∀ (l₁ l₂ : List Char),
    utf16OfChars l₁ = utf16OfChars l₂ → l₁ = l₂ := by
  intro l₁
  induction l₁ with
  | nil =>
    intro l₂ h
    cases l₂ with
    | nil => rfl
    | cons c cs =>
      exfalso
      simp only [utf16OfChars] at h
      by_cases hc : c.toNat < 0x10000 <;> simp [utf16EncodeChar, hc] at h
  | cons c₁ cs₁ ih =>
    intro l₂ h
    cases l₂ with
    | nil =>
      exfalso
      simp only [utf16OfChars] at h
      by_cases hc : c₁.toNat < 0x10000 <;> simp [utf16EncodeChar, hc] at h
    | cons c₂ cs₂ =>
      simp only [utf16OfChars] at h
      have hv₁ := char_valid_ranges c₁
      have hv₂ := char_valid_ranges c₂
      by_cases h₁ : c₁.toNat < 0x10000 <;> by_cases h₂ : c₂.toNat < 0x10000
      · simp only [utf16EncodeChar, h₁, h₂, if_true, List.cons_append, List.nil_append,
          List.cons.injEq] at h
        rw [char_toNat_inj h.1, ih cs₂ h.2]
      · simp only [utf16EncodeChar, h₁, h₂, if_true, if_false, List.cons_append,
          List.nil_append, List.cons.injEq] at h
        exact absurd h.1 (by omega)
      · simp only [utf16EncodeChar, h₁, h₂, if_true, if_false, List.cons_append,
          List.nil_append, List.cons.injEq] at h
        exact absurd h.1 (by omega)
      · simp only [utf16EncodeChar, h₁, h₂, if_false, List.cons_append, List.nil_append,
          List.cons.injEq] at h
        obtain ⟨hq, hr, ht⟩ := h
        have : c₁.toNat = c₂.toNat := by omega
        rw [char_toNat_inj this, ih cs₂ ht]

theorem utf16Units_inj {s t : String} (h : utf16Units s = utf16Units t) : s = t :=
  strEq_of_data s t (utf16OfChars_inj s.data t.data h)

theorem jsLe_total (a b : String) : jsLe a b ∨ jsLe b a := by
  unfold jsLe jsStrLt
  by_cases h : lexLt (utf16Units b) (utf16Units a) = true
  · right; exact lexLt_asymm _ _ h
  · left; simpa using h

theorem jsLe_trans (a b c : String) (h1 : jsLe a b) (h2 : jsLe b c) : jsLe a c :=
  lexLt_le_trans (utf16Units a) (utf16Units b) (utf16Units c) h1 h2

theorem jsLe_antisymm (a b : String) (h1 : jsLe a b) (h2 : jsLe b a) : a = b :=
  utf16Units_inj (lexLt_eq_of_not_lt (utf16Units a) (utf16Units b) h2 h1)

theorem perm_assocLookup : ∀ {l₁ l₂ : List (String × String)}, l₁.Perm l₂ →
    (l₁.map Prod.fst).Nodup → ∀ k, assocLookup l₁ k = assocLookup l₂ k := by
  intro l₁ l₂ hp
  induction hp with
  | nil => intro _ _; rfl
  | cons x hp ih =>
    intro hnd k
    simp only [List.map_cons, List.nodup_cons] at hnd
    by_cases hx : x.1 = k <;> simp [assocLookup, hx, ih hnd.2 k]
  | swap x y l =>
    intro hnd k
    simp only [List.map_cons, List.nodup_cons, List.mem_cons] at hnd
    have hxy : y.1 ≠ x.1 := fun h => hnd.1 (Or.inl h)
    by_cases h1 : y.1 = k <;> by_cases h2 : x.1 = k
    · exact absurd (h1.trans h2.symm) hxy
    · simp [assocLookup, h1, h2]
    · simp [assocLookup, h1, h2]
    · simp [assocLookup, h1, h2]
  | trans hp₁ hp₂ ih₁ ih₂ =>
    intro hnd k
    have hmid := ((hp₁.map Prod.fst).nodup_iff).mp hnd
    exact (ih₁ hnd k).trans (ih₂ hmid k)

theorem digit_keep (m : Nat) :
    (!(digitChar10 m == '-' || digitChar10 m == ':')) = true := by
  have h : m % 10 < 10 := Nat.mod_lt m (by omega)
  have hall : ∀ k, k < 10 →
      (!(Char.ofNat (48 + k) == '-' || Char.ofNat (48 + k) == ':')) = true := by decide
  exact hall (m % 10) h

theorem digit_isDigit (m : Nat) : (digitChar10 m).isDigit = true := by
  have h : m % 10 < 10 := Nat.mod_lt m (by omega)
  have hall : ∀ k, k < 10 → (Char.ofNat (48 + k)).isDigit = true := by decide
  exact hall (m % 10) h

theorem digit_ne_dot (m : Nat) : (digitChar10 m == '.') = false := by
  have h : m % 10 < 10 := Nat.mod_lt m (by omega)
  have hall : ∀ k, k < 10 → (Char.ofNat (48 + k) == '.') = false := by decide
  exact hall (m % 10) h

theorem removeDotTriple_cons_ne (c : Char) (l : List Char) (h : (c == '.') = false) :
    removeDotTriple (c :: l) = c :: removeDotTriple l := by
  simp [removeDotTriple, h]

theorem removeDotTriple_dot_digits (a b c : Char) (l : List Char)
    (ha : a.isDigit = true) (hb : b.isDigit = true) (hc : c.isDigit = true) :
    removeDotTriple ('.' :: a :: b :: c :: l) = l := by
  simp [removeDotTriple, ha, hb, hc]

theorem xDateOf_data (t : UTCTime) : (xDateOf t).data =
    [digitChar10 (t.year / 1000), digitChar10 (t.year / 100), digitChar10 (t.year / 10),
      digitChar10 t.year, digitChar10 (t.month / 10), digitChar10 t.month,
      digitChar10 (t.day / 10), digitChar10 t.day, 'T', digitChar10 (t.hour / 10),
      digitChar10 t.hour, digitChar10 (t.minute / 10), digitChar10 t.minute,
      digitChar10 (t.second / 10), digitChar10 t.second, 'Z'] := by
  have hdash : (("-" : String)).data = ['-'] := rfl
  have hcolon : ((":" : String)).data = [':'] := rfl
  have hdot : (("." : String)).data = ['.'] := rfl
  have hT : (("T" : String)).data = ['T'] := rfl
  have hZ : (("Z" : String)).data = ['Z'] := rfl
  have hTk : (!(('T' : Char) == '-' || ('T' : Char) == ':')) = true := rfl
  have hZk : (!(('Z' : Char) == '-' || ('Z' : Char) == ':')) = true := rfl
  have hDotk : (!(('.' : Char) == '-' || ('.' : Char) == ':')) = true := rfl
  have hDashDrop : (!(('-' : Char) == '-' || ('-' : Char) == ':')) = false := rfl
  have hColonDrop : (!((':' : Char) == '-' || (':' : Char) == ':')) = false := rfl
  have hTd : (('T' : Char) == '.') = false := rfl
  have hiso : (toISOString t).data =
      [digitChar10 (t.year / 1000), digitChar10 (t.year / 100), digitChar10 (t.year / 10),
        digitChar10 t.year, '-', digitChar10 (t.month / 10), digitChar10 t.month, '-',
        digitChar10 (t.day / 10), digitChar10 t.day, 'T', digitChar10 (t.hour / 10),
        digitChar10 t.hour, ':', digitChar10 (t.minute / 10), digitChar10 t.minute, ':',
        digitChar10 (t.second / 10), digitChar10 t.second, '.', digitChar10 (t.millis / 100),
        digitChar10 (t.millis / 10), digitChar10 t.millis, 'Z'] := by
    simp [toISOString, String.data_append, pad4, pad2, pad3, hdash, hcolon, hdot, hT, hZ]
  have hstrip : (stripDashColon (toISOString t)).data =
      [digitChar10 (t.year / 1000), digitChar10 (t.year / 100), digitChar10 (t.year / 10),
        digitChar10 t.year, digitChar10 (t.month / 10), digitChar10 t.month,
        digitChar10 (t.day / 10), digitChar10 t.day, 'T', digitChar10 (t.hour / 10),
        digitChar10 t.hour, digitChar10 (t.minute / 10), digitChar10 t.minute,
        digitChar10 (t.second / 10), digitChar10 t.second, '.', digitChar10 (t.millis / 100),
        digitChar10 (t.millis / 10), digitChar10 t.millis, 'Z'] := by
    simp only [stripDashColon, hiso, List.filter, digit_keep, hTk, hZk, hDotk,
      hDashDrop, hColonDrop]
  show (removeDotTriple (stripDashColon (toISOString t)).data) = _
  rw [hstrip]
  rw [removeDotTriple_cons_ne _ _ (digit_ne_dot _), removeDotTriple_cons_ne _ _ (digit_ne_dot _),
    removeDotTriple_cons_ne _ _ (digit_ne_dot _), removeDotTriple_cons_ne _ _ (digit_ne_dot _),
    removeDotTriple_cons_ne _ _ (digit_ne_dot _), removeDotTriple_cons_ne _ _ (digit_ne_dot _),
    removeDotTriple_cons_ne _ _ (digit_ne_dot _), removeDotTriple_cons_ne _ _ (digit_ne_dot _),
    removeDotTriple_cons_ne _ _ hTd, removeDotTriple_cons_ne _ _ (digit_ne_dot _),
    removeDotTriple_cons_ne _ _ (digit_ne_dot _), removeDotTriple_cons_ne _ _ (digit_ne_dot _),
    removeDotTriple_cons_ne _ _ (digit_ne_dot _), removeDotTriple_cons_ne _ _ (digit_ne_dot _),
    removeDotTriple_cons_ne _ _ (digit_ne_dot _),
    removeDotTriple_dot_digits _ _ _ _ (digit_isDigit _) (digit_isDigit _) (digit_isDigit _)]

theorem xDateOf_eq (t : UTCTime) :
    xDateOf t = pad4 t.year ++ pad2 t.month ++ pad2 t.day ++ "T" ++ pad2 t.hour ++
      pad2 t.minute ++ pad2 t.second ++ "Z" := by
  apply strEq_of_data
  rw [xDateOf_data]
  have hT : (("T" : String)).data = ['T'] := rfl
  have hZ : (("Z" : String)).data = ['Z'] := rfl
  simp [String.data_append, pad4, pad2, hT, hZ]

theorem dateStampOf_eq (t : UTCTime) :
    dateStampOf t = pad4 t.year ++ pad2 t.month ++ pad2 t.day := by
  apply strEq_of_data
  show ((xDateOf t).data.take 8) = _
  rw [xDateOf_data]
  simp [String.data_append, pad4, pad2]

theorem hexDigitLower_mem (m : Nat) : hexDigitLower m ∈ lowercaseHexChars := by
  have h : m % 16 < 16 := Nat.mod_lt m (by omega)
  have hall : ∀ k, k < 16 →
      (if k < 10 then Char.ofNat (48 + k) else Char.ofNat (87 + k)) ∈ lowercaseHexChars := by
    decide
  exact hall (m % 16) h

theorem hexCharsLower_mem : ∀ (bs : List Nat), ∀ c ∈ hexCharsLower bs, c ∈ lowercaseHexChars := by
  intro bs
  induction bs with
  | nil => intro c hc; simp [hexCharsLower] at hc
  | cons b bs ih =>
    intro c hc
    simp only [hexCharsLower, List.mem_cons] at hc
    rcases hc with rfl | rfl | hc
    · exact hexDigitLower_mem _
    · exact hexDigitLower_mem _
    · exact ih c hc

theorem bufferToHex_chars (bs : List Nat) : ∀ c ∈ (bufferToHex bs).data, c ∈ lowercaseHexChars :=
  hexCharsLower_mem bs

theorem canonicalHeadersOf_eq (host xd xcs : String) (hs : List (String × String)) :
    canonicalHeadersOf host xd xcs hs =
      "host:" ++ host ++ "\n" ++ "x-date:" ++ xd ++ "\n" ++ "x-content-sha256:" ++ xcs ++ "\n" ++
        "content-type:" ++ contentTypeValueOf hs ++ "\n" := by
  have e1 : (("host" : String) == "host") = true := rfl
  have e2 : (("x-date" : String) == "host") = false := rfl
  have e3 : (("x-date" : String) == "x-date") = true := rfl
  have e4 : (("x-content-sha256" : String) == "host") = false := rfl
  have e5 : (("x-content-sha256" : String) == "x-date") = false := rfl
  have e6 : (("x-content-sha256" : String) == "x-content-sha256") = true := rfl
  have e7 : (("content-type" : String) == "host") = false := rfl
  have e8 : (("content-type" : String) == "x-date") = false := rfl
  have e9 : (("content-type" : String) == "x-content-sha256") = false := rfl
  have e10 : (("content-type" : String) == "content-type") = true := rfl
  apply strEq_of_data
  simp [canonicalHeadersOf, signedHeaderKeys, canonicalHeaderLine, joinSep,
    String.data_append, List.append_assoc, e1, e2, e3, e4, e5, e6, e7, e8, e9, e10]

theorem encodeURIComponentChar_cases (c : Char) :
    encodeURIComponentChar c = claimC4EncodeChar c ∨
      ((c.toNat = 33 ∨ c.toNat = 42 ∨ c.toNat = 39 ∨ c.toNat = 40 ∨ c.toNat = 41) ∧
        encodeURIComponentChar c = String.mk [c]) := by
  by_cases hr : rfcUnreserved c.toNat = true
  · left
    have hj : jsUriUnescaped c.toNat = true := by
      simp only [rfcUnreserved, Bool.or_eq_true, Bool.and_eq_true, decide_eq_true_eq,
        beq_iff_eq] at hr
      simp only [jsUriUnescaped, Bool.or_eq_true, Bool.and_eq_true, decide_eq_true_eq,
        beq_iff_eq]
      tauto
    simp [encodeURIComponentChar, claimC4EncodeChar, hr, hj]
  · by_cases hj : jsUriUnescaped c.toNat = true
    · right
      constructor
      · simp only [rfcUnreserved, Bool.or_eq_true, Bool.and_eq_true, decide_eq_true_eq,
          beq_iff_eq] at hr
        simp only [jsUriUnescaped, Bool.or_eq_true, Bool.and_eq_true, decide_eq_true_eq,
          beq_iff_eq] at hj
        omega
      · simp [encodeURIComponentChar, hj]
    · left
      simp only [Bool.not_eq_true] at hr hj
      simp [encodeURIComponentChar, claimC4EncodeChar, hr, hj]

/-! ### Claim theorems -/

/-- C1: for every signer input and captured timestamp, the authorization value
is exactly the literal `HMAC-SHA256 Credential=` followed by the access key
id, the slash-joined credential scope ending in `request`, the literal
signed-headers list, and `Signature=` followed by the lowercase-hex
HMAC-SHA256, keyed with the derived signing key, of the string to sign built
from the four newline-joined lines `HMAC-SHA256`, the x-date value, the
credential scope, and the hex SHA-256 of the canonical request. -/
theorem claim_C1 (C : Crypto) (i : SignInput) (t : UTCTime) :
    (signVolcengineRequest C i t).authorization =
      "HMAC-SHA256 Credential=" ++ i.accessKeyId ++ "/" ++ dateStampOf t ++ "/" ++ i.region ++
        "/" ++ i.service ++ "/request" ++ ", SignedHeaders=" ++
        "host;x-date;x-content-sha256;content-type" ++ ", Signature=" ++
        bufferToHex (C.hmac (signingKeyOf C i.secretAccessKey (dateStampOf t) i.region i.service)
          (utf8Encode ("HMAC-SHA256" ++ "\n" ++ xDateOf t ++ "\n" ++
            (dateStampOf t ++ "/" ++ i.region ++ "/" ++ i.service ++ "/request") ++ "\n" ++
            hashSHA256 C (canonicalRequestOf C i t)))) ∧
    (∀ ch ∈ (signatureOf C i t).data, ch ∈ lowercaseHexChars) := by
  have hsh : signedHeadersStr = "host;x-date;x-content-sha256;content-type" := rfl
  constructor
  · simp only [signVolcengineRequest]
    rw [hsh]
    simp [signatureOf, hmacSHA256, stringToSignOf, credentialScopeOf, joinSep,
      String.append_assoc]
  · exact bufferToHex_chars _

/-- C1 witness: the theorem evaluated at a concrete crypto, input and time. -/
theorem claim_C1_witness :
    (signVolcengineRequest cryptoDemo inputNoCT timeDemo).authorization =
      "HMAC-SHA256 Credential=" ++ inputNoCT.accessKeyId ++ "/" ++ dateStampOf timeDemo ++ "/" ++
        inputNoCT.region ++ "/" ++ inputNoCT.service ++ "/request" ++ ", SignedHeaders=" ++
        "host;x-date;x-content-sha256;content-type" ++ ", Signature=" ++
        bufferToHex (cryptoDemo.hmac
          (signingKeyOf cryptoDemo inputNoCT.secretAccessKey (dateStampOf timeDemo)
            inputNoCT.region inputNoCT.service)
          (utf8Encode ("HMAC-SHA256" ++ "\n" ++ xDateOf timeDemo ++ "\n" ++
            (dateStampOf timeDemo ++ "/" ++ inputNoCT.region ++ "/" ++ inputNoCT.service ++
              "/request") ++ "\n" ++
            hashSHA256 cryptoDemo (canonicalRequestOf cryptoDemo inputNoCT timeDemo)))) ∧
    (∀ ch ∈ (signatureOf cryptoDemo inputNoCT timeDemo).data, ch ∈ lowercaseHexChars) :=
  claim_C1 cryptoDemo inputNoCT timeDemo

/-- C2: the signing key is exactly four chained HMAC-SHA256 stages, each keyed
by the previous raw output, seeded with the secret key bytes and ending in the
literal `request`; and the signature placed in the authorization is the hex
HMAC of the string to sign under exactly that key. -/
theorem claim_C2 (C : Crypto) (secretKey dateStamp region service : String)
    (i : SignInput) (t : UTCTime) :
    signingKeyOf C secretKey dateStamp region service =
      C.hmac (C.hmac (C.hmac (C.hmac (utf8Encode secretKey) (utf8Encode dateStamp))
        (utf8Encode region)) (utf8Encode service)) (utf8Encode "request") ∧
    signatureOf C i t =
      bufferToHex (C.hmac (signingKeyOf C i.secretAccessKey (dateStampOf t) i.region i.service)
        (utf8Encode (stringToSignOf C i t))) :=
  ⟨rfl, rfl⟩

/-- C3: the canonical request is exactly six newline-joined parts: the method,
the path verbatim, the canonical query string, the canonical headers block of
four fixed newline-terminated lines in fixed order, the fixed signed-headers
string, and the hex SHA-256 of the body, which is also returned as the
x-content-sha256 value. -/
theorem claim_C3 (C : Crypto) (i : SignInput) (t : UTCTime) :
    canonicalRequestOf C i t =
      i.method ++ "\n" ++ i.path ++ "\n" ++ sortedParamsOf i.queryParams ++ "\n" ++
        ("host:" ++ i.host ++ "\n" ++ "x-date:" ++ xDateOf t ++ "\n" ++
          "x-content-sha256:" ++ xContentSha256Of C i.body ++ "\n" ++
          "content-type:" ++ contentTypeValueOf i.headers ++ "\n") ++ "\n" ++
        "host;x-date;x-content-sha256;content-type" ++ "\n" ++ xContentSha256Of C i.body ∧
    (signVolcengineRequest C i t).xContentSha256 = hashSHA256 C i.body := by
  have hsh : signedHeadersStr = "host;x-date;x-content-sha256;content-type" := rfl
  constructor
  · apply strEq_of_data
    simp only [canonicalRequestOf, joinSep]
    rw [canonicalHeadersOf_eq, hsh]
    simp only [String.data_append, List.append_assoc]
  · rfl

/-- C4 counterexample: with query keys `U+10000`, `!`, `U+FFFF` the source
canonical query string differs from the one the claim demands. The source
leaves `!` unencoded (JavaScript `encodeURIComponent` keeps it) and orders
the supplementary code point U+10000 before U+FFFF (JavaScript sorts by
UTF-16 code unit, where the surrogate D800 precedes FFFF), while the claim
demands `%21` and byte-value order, which puts U+FFFF (bytes EF BF BF)
before U+10000 (bytes F0 90 80 80). -/
theorem claim_C4_counterexample :
    sortedParamsOf [(str10000, ""), ("!", ""), (strFFFF, "")] =
      "!=&%F0%90%80%80=&%EF%BF%BF=" ∧
    claimC4QueryString [(str10000, ""), ("!", ""), (strFFFF, "")] =
      "%21=&%EF%BF%BF=&%F0%90%80%80=" ∧
    sortedParamsOf [(str10000, ""), ("!", ""), (strFFFF, "")] ≠
      claimC4QueryString [(str10000, ""), ("!", ""), (strFFFF, "")] :=
  ⟨by decide, by decide, by decide⟩

/-- C4 amended: the canonical query string renders the keys in JavaScript
default sort order, which is lexicographic by UTF-16 code unit (this agrees
with byte-value order on keys without supplementary characters), as
`key=value` pairs joined by ampersands; keys and values are percent-encoded
so that every character outside the unreserved set is encoded except for the
additional characters `! * ( )` and the apostrophe, which
`encodeURIComponent` also leaves literal; a parameter with an empty value
still renders as `key=` with the equals sign present. -/
theorem claim_C4_amended (qp : List (String × String)) :
    ∃ ks : List String,
      ks.Perm (qp.map Prod.fst) ∧ List.Sorted jsLe ks ∧
      sortedParamsOf qp =
        joinSep "&" (ks.map (fun key =>
          encodeURIComponent key ++ "=" ++ encodeURIComponent (jsIndex qp key))) ∧
      (∀ c : Char, encodeURIComponentChar c = claimC4EncodeChar c ∨
        ((c.toNat = 33 ∨ c.toNat = 42 ∨ c.toNat = 39 ∨ c.toNat = 40 ∨ c.toNat = 41) ∧
          encodeURIComponentChar c = String.mk [c])) ∧
      (∀ key : String, encodeURIComponent key ++ "=" ++ encodeURIComponent "" =
        encodeURIComponent key ++ "=") := by
  haveI : IsTotal String jsLe := ⟨jsLe_total⟩
  haveI : IsTrans String jsLe := ⟨jsLe_trans⟩
  refine ⟨sortKeysJs (qp.map Prod.fst), List.perm_insertionSort jsLe _,
    List.sorted_insertionSort jsLe _, rfl, encodeURIComponentChar_cases, ?_⟩
  intro key
  have hempty : encodeURIComponent "" = "" := rfl
  rw [hempty]
  apply strEq_of_data
  simp [String.data_append]

/-- C5: two query maps holding the same pairs in different orders produce the
same canonical query string, and, at the same fixed timestamp, the whole
signing result is identical. -/
theorem claim_C5 (C : Crypto) (i : SignInput) (qp₂ : List (String × String)) (t : UTCTime)
    (hperm : i.queryParams.Perm qp₂) (hnd : (i.queryParams.map Prod.fst).Nodup) :
    sortedParamsOf i.queryParams = sortedParamsOf qp₂ ∧
    signVolcengineRequest C i t = signVolcengineRequest C { i with queryParams := qp₂ } t := by
  haveI : IsTotal String jsLe := ⟨jsLe_total⟩
  haveI : IsTrans String jsLe := ⟨jsLe_trans⟩
  haveI : IsAntisymm String jsLe := ⟨jsLe_antisymm⟩
  have hkeys : (i.queryParams.map Prod.fst).Perm (qp₂.map Prod.fst) := hperm.map Prod.fst
  have hsort : sortKeysJs (i.queryParams.map Prod.fst) = sortKeysJs (qp₂.map Prod.fst) :=
    List.eq_of_perm_of_sorted
      ((List.perm_insertionSort jsLe _).trans (hkeys.trans (List.perm_insertionSort jsLe _).symm))
      (List.sorted_insertionSort jsLe _) (List.sorted_insertionSort jsLe _)
  have hlook : ∀ k, assocLookup i.queryParams k = assocLookup qp₂ k :=
    perm_assocLookup hperm hnd
  have hfun : (fun key => encodeURIComponent key ++ "=" ++
      encodeURIComponent (jsIndex i.queryParams key)) =
      (fun key => encodeURIComponent key ++ "=" ++ encodeURIComponent (jsIndex qp₂ key)) := by
    funext k
    rw [jsIndex, jsIndex, hlook k]
  have hsp : sortedParamsOf i.queryParams = sortedParamsOf qp₂ := by
    rw [sortedParamsOf, sortedParamsOf, hsort, hfun]
  refine ⟨hsp, ?_⟩
  simp [signVolcengineRequest, canonicalRequestOf, stringToSignOf, signatureOf, hsp]

/-- C5 witness: the map holding B then A signs identically to the map holding
A then B. -/
theorem claim_C5_witness :
    sortedParamsOf inputBA.queryParams = sortedParamsOf [("A", "1"), ("B", "2")] ∧
    signVolcengineRequest cryptoDemo inputBA timeDemo =
      signVolcengineRequest cryptoDemo { inputBA with queryParams := [("A", "1"), ("B", "2")] }
        timeDemo :=
  claim_C5 cryptoDemo inputBA [("A", "1"), ("B", "2")] timeDemo
    (List.Perm.swap ("A", "1") ("B", "2") []) (by decide)

/-- C6: when the caller's header map holds neither `content-type` nor
`Content-Type`, the canonical headers block still has all four fixed lines
and its content-type line carries the literal text `undefined`; the signer
proceeds and builds the canonical request around that block. -/
theorem claim_C6 (C : Crypto) (i : SignInput) (t : UTCTime)
    (h1 : assocLookup i.headers "content-type" = none)
    (h2 : assocLookup i.headers "Content-Type" = none) :
    canonicalHeadersOf i.host (xDateOf t) (xContentSha256Of C i.body) i.headers =
      "host:" ++ i.host ++ "\n" ++ "x-date:" ++ xDateOf t ++ "\n" ++
        "x-content-sha256:" ++ xContentSha256Of C i.body ++ "\n" ++
        "content-type:" ++ "undefined" ++ "\n" ∧
    canonicalRequestOf C i t =
      i.method ++ "\n" ++ i.path ++ "\n" ++ sortedParamsOf i.queryParams ++ "\n" ++
        ("host:" ++ i.host ++ "\n" ++ "x-date:" ++ xDateOf t ++ "\n" ++
          "x-content-sha256:" ++ xContentSha256Of C i.body ++ "\n" ++
          "content-type:" ++ "undefined" ++ "\n") ++ "\n" ++
        "host;x-date;x-content-sha256;content-type" ++ "\n" ++ xContentSha256Of C i.body := by
  have hct : contentTypeValueOf i.headers = "undefined" := by
    rw [contentTypeValueOf, h1, h2]
    rfl
  have hsh : signedHeadersStr = "host;x-date;x-content-sha256;content-type" := rfl
  constructor
  · rw [canonicalHeadersOf_eq, hct]
  · apply strEq_of_data
    simp only [canonicalRequestOf, joinSep]
    rw [canonicalHeadersOf_eq, hct, hsh]
    simp only [String.data_append, List.append_assoc]

/-- C6 witness: the theorem evaluated at a concrete input with an empty
header map. -/
theorem claim_C6_witness :
    canonicalHeadersOf inputNoCT.host (xDateOf timeDemo)
        (xContentSha256Of cryptoDemo inputNoCT.body) inputNoCT.headers =
      "host:" ++ inputNoCT.host ++ "\n" ++ "x-date:" ++ xDateOf timeDemo ++ "\n" ++
        "x-content-sha256:" ++ xContentSha256Of cryptoDemo inputNoCT.body ++ "\n" ++
        "content-type:" ++ "undefined" ++ "\n" ∧
    canonicalRequestOf cryptoDemo inputNoCT timeDemo =
      inputNoCT.method ++ "\n" ++ inputNoCT.path ++ "\n" ++
        sortedParamsOf inputNoCT.queryParams ++ "\n" ++
        ("host:" ++ inputNoCT.host ++ "\n" ++ "x-date:" ++ xDateOf timeDemo ++ "\n" ++
          "x-content-sha256:" ++ xContentSha256Of cryptoDemo inputNoCT.body ++ "\n" ++
          "content-type:" ++ "undefined" ++ "\n") ++ "\n" ++
        "host;x-date;x-content-sha256;content-type" ++ "\n" ++
        xContentSha256Of cryptoDemo inputNoCT.body :=
  claim_C6 cryptoDemo inputNoCT timeDemo rfl rfl

/-- C7: the x-date value returned by the signer is the captured instant in
the basic format `YYYYMMDDTHHMMSSZ` with no separators and no sub-second
fraction; the date stamp is the first eight code units of that same x-date
and is the value used both in the credential scope of the authorization and
in the key derivation. -/
theorem claim_C7 (C : Crypto) (i : SignInput) (t : UTCTime) :
    (signVolcengineRequest C i t).xDate =
      pad4 t.year ++ pad2 t.month ++ pad2 t.day ++ "T" ++ pad2 t.hour ++ pad2 t.minute ++
        pad2 t.second ++ "Z" ∧
    dateStampOf t = jsSubstring0 ((signVolcengineRequest C i t).xDate) 8 ∧
    dateStampOf t = pad4 t.year ++ pad2 t.month ++ pad2 t.day ∧
    (signVolcengineRequest C i t).authorization =
      "HMAC-SHA256 Credential=" ++ i.accessKeyId ++ "/" ++ dateStampOf t ++ "/" ++ i.region ++
        "/" ++ i.service ++ "/request" ++ ", SignedHeaders=" ++ signedHeadersStr ++
        ", Signature=" ++
        bufferToHex (hmacSHA256 C
          (signingKeyOf C i.secretAccessKey (dateStampOf t) i.region i.service)
          (stringToSignOf C i t)) := by
  refine ⟨xDateOf_eq t, rfl, dateStampOf_eq t, ?_⟩
  apply strEq_of_data
  simp only [signVolcengineRequest, signatureOf, credentialScopeOf]
  simp only [String.data_append, List.append_assoc]

/-- C8: two executions on identical inputs and the same captured timestamp
return the same authorization, the same x-date and the same
x-content-sha256. -/
theorem claim_C8 (C : Crypto) (i₁ i₂ : SignInput) (t₁ t₂ : UTCTime)
    (hi : i₁ = i₂) (ht : t₁ = t₂) :
    (signVolcengineRequest C i₁ t₁).authorization =
      (signVolcengineRequest C i₂ t₂).authorization ∧
    (signVolcengineRequest C i₁ t₁).xDate = (signVolcengineRequest C i₂ t₂).xDate ∧
    (signVolcengineRequest C i₁ t₁).xContentSha256 =
      (signVolcengineRequest C i₂ t₂).xContentSha256 := by
  subst hi
  subst ht
  exact ⟨rfl, rfl, rfl⟩

/-- C8 witness: the theorem evaluated at one concrete input and time. -/
theorem claim_C8_witness :
    (signVolcengineRequest cryptoDemo inputNoCT timeDemo).authorization =
      (signVolcengineRequest cryptoDemo inputNoCT timeDemo).authorization ∧
    (signVolcengineRequest cryptoDemo inputNoCT timeDemo).xDate =
      (signVolcengineRequest cryptoDemo inputNoCT timeDemo).xDate ∧
    (signVolcengineRequest cryptoDemo inputNoCT timeDemo).xContentSha256 =
      (signVolcengineRequest cryptoDemo inputNoCT timeDemo).xContentSha256 :=
  claim_C8 cryptoDemo inputNoCT inputNoCT timeDemo timeDemo rfl rfl

set_option maxRecDepth 4096 in
/-- C9 counterexample: the signer does not reject an empty method or path.
With both empty it returns a complete, well-formed signed result: the claim
that the signer "rejects an empty method or path rather than signing it" is
false at this input. -/
theorem claim_C9_counterexample :
    inputEmptyMP.method = "" ∧ inputEmptyMP.path = "" ∧
    (signVolcengineRequest cryptoDemo inputEmptyMP timeDemo).authorization =
      "HMAC-SHA256 Credential=AK/20240101/r/cv/request, SignedHeaders=host;x-date;x-content-sha256;content-type, Signature=0235" :=
  ⟨rfl, rfl, by decide⟩

/-- C9 amended: the `/api/ocr` handler rejects absent or empty credentials
with a 500 `Missing Volcengine credentials` response before any signing and
before any outbound fetch; the signer itself performs no validation of the
method or path — called with an empty method or path it still returns a
complete signed authorization. -/
theorem claim_C9_amended (C : Crypto) (ak sk : Option String) (img : String) (t : UTCTime)
    (up : String) (i : SignInput)
    (hcred : jsTruthyOpt ak = false ∨ jsTruthyOpt sk = false)
    (himg : (img == "") = false) (hempty : i.method = "" ∨ i.path = "") :
    ocrHandler C ak sk (some img) t up =
      { response := OcrResponse.errJson 500 "Missing Volcengine credentials",
        signCalls := 0, fetches := [] } ∧
    (signVolcengineRequest C i t).authorization =
      "HMAC-SHA256 Credential=" ++ i.accessKeyId ++ "/" ++
        credentialScopeOf t i.region i.service ++ ", SignedHeaders=" ++ signedHeadersStr ++
        ", Signature=" ++ signatureOf C i t := by
  constructor
  · have hg : ¬ (jsTruthyOpt (some img) = false) := by simp [jsTruthyOpt, himg]
    simp only [ocrHandler]
    rw [if_neg hg, if_pos hcred]
  · rfl

/-- C9 amended witness: the theorem evaluated with an absent access key and
an input with an empty method. -/
theorem claim_C9_amended_witness :
    ocrHandler cryptoDemo none (some "SK") (some "img") timeDemo "up" =
      { response := OcrResponse.errJson 500 "Missing Volcengine credentials",
        signCalls := 0, fetches := [] } ∧
    (signVolcengineRequest cryptoDemo inputEmptyMP timeDemo).authorization =
      "HMAC-SHA256 Credential=" ++ inputEmptyMP.accessKeyId ++ "/" ++
        credentialScopeOf timeDemo inputEmptyMP.region inputEmptyMP.service ++
        ", SignedHeaders=" ++ signedHeadersStr ++ ", Signature=" ++
        signatureOf cryptoDemo inputEmptyMP timeDemo :=
  claim_C9_amended cryptoDemo none (some "SK") "img" timeDemo "up" inputEmptyMP
    (Or.inl rfl) rfl (Or.inl rfl)

/-- C10: a parsed `/api/ocr` body whose `image_base64` field is absent or the
empty string yields status 400 with error text `image_base64 is required`,
with no signing and no outbound fetch. -/
theorem claim_C10 (C : Crypto) (ak sk : Option String) (img : Option String) (t : UTCTime)
    (up : String) (h : img = none ∨ img = some "") :
    ocrHandler C ak sk img t up =
      { response := OcrResponse.errJson 400 "image_base64 is required",
        signCalls := 0, fetches := [] } := by
  rcases h with rfl | rfl <;> rfl

/-- C10 witness: the theorem evaluated with an absent field. -/
theorem claim_C10_witness :
    ocrHandler cryptoDemo none none none timeDemo "" =
      { response := OcrResponse.errJson 400 "image_base64 is required",
        signCalls := 0, fetches := [] } :=
  claim_C10 cryptoDemo none none none timeDemo "" (Or.inl rfl)
